import Mathlib

/-!
Shallow embedding of the conversational orchestration core of the
marom-meta-backend repository: the fuzzy entity resolver
(`calculateSimilarity`, `findProductByName`, `findProductCandidates`),
the confirmation gate and command router of the WhatsApp message
handler (`handleIncomingWhatsAppMessage`, `executeCommand`, `isAdmin`),
and the campaign-creation workflow engine (`handleWorkflowNavigation`,
the per-step campaign handlers).

Strings are modelled as `List Char`; JavaScript string operations
(`toLowerCase`, `trim`, `split(/\s+/)`, `includes`, `startsWith`) are
embedded as executable functions on character lists.  Floating-point
scores are modelled as rationals.  External collaborators (catalog
fetch, generative media, ad platform, OpenAI, message transport) are
passed in as explicit result values, mirroring the narrow interface the
source consumes.
-/

/-- ASCII whitespace, standing for the characters the JS `\s` class
matches in the inputs this system sees. -/
def isWsChar (c : Char) : Bool :=
  c = ' ' || c = '\t' || c = '\n' || c = '\r'

/-- ASCII lower-casing of one character, as `String.prototype.toLowerCase`
acts on ASCII. -/
def asciiLower (c : Char) : Char :=
  if 'A' ≤ c ∧ c ≤ 'Z' then Char.ofNat (c.toNat + 32) else c

/-- ASCII upper-casing of one character, as `String.prototype.toUpperCase`
acts on ASCII. -/
def asciiUpper (c : Char) : Char :=
  if 'a' ≤ c ∧ c ≤ 'z' then Char.ofNat (c.toNat - 32) else c

/-- JS `s.toLowerCase()`. -/
def jsToLower (s : List Char) : List Char := s.map asciiLower

/-- JS `s.toUpperCase()`. -/
def jsToUpper (s : List Char) : List Char := s.map asciiUpper

/-- JS `s.trim()`: strip leading and trailing whitespace. -/
def trimChars (s : List Char) : List Char :=
  ((s.dropWhile isWsChar).reverse.dropWhile isWsChar).reverse

mutual

/-- Main state of the JS `s.split(/\s+/)` scan: accumulating the current
token (in reverse). -/
def splitWsGo : List Char → List Char → List (List Char)
  | [], cur => [cur.reverse]
  | c :: t, cur =>
    if isWsChar c then cur.reverse :: splitWsSkip t
    else splitWsGo t (c :: cur)

/-- Skipping state of the JS `s.split(/\s+/)` scan: inside a whitespace
run that has just terminated a token. -/
def splitWsSkip : List Char → List (List Char)
  | [] => [[]]
  | c :: t => if isWsChar c then splitWsSkip t else splitWsGo t [c]

end

/-- JS `s.split(/\s+/)`: split on maximal whitespace runs; a leading run
yields a leading empty token and a trailing run a trailing empty token,
and the empty string yields `[""]`. -/
def splitWs (s : List Char) : List (List Char) := splitWsGo s []

/-- JS `big.includes(small)`: contiguous-substring test. -/
def jsIncludes (big small : List Char) : Bool :=
  if small.isPrefixOf big then true
  else
    match big with
    | [] => false
    | _ :: t => jsIncludes t small

/-- JS `s.startsWith(pre)`. -/
def jsStartsWith (s pre : List Char) : Bool := pre.isPrefixOf s

/-- Numeric value of a digit run. -/
def digitsToNat (ds : List Char) : ℕ :=
  ds.foldl (fun n c => 10 * n + (c.toNat - 48)) 0

/-- The first match of the JS regex `/\$?(\d+(?:\.\d+)?)/` in a string,
as a rational: the first maximal digit run, extended by a fractional
part when a dot followed by a digit comes right after.  `none` when the
string holds no digit. -/
def firstNumber : List Char → Option ℚ
  | [] => none
  | c :: t =>
    if c.isDigit then
      let ds := (c :: t).takeWhile Char.isDigit
      let rest := (c :: t).dropWhile Char.isDigit
      some
        (match rest with
         | '.' :: r2 =>
           let fs := r2.takeWhile Char.isDigit
           if fs.isEmpty then (digitsToNat ds : ℚ)
           else (digitsToNat ds : ℚ) + (digitsToNat fs : ℚ) / ((10 : ℚ) ^ fs.length)
         | _ => (digitsToNat ds : ℚ))
    else firstNumber t

/-- JS `text.match(/^(\d)/)`: the leading character as a digit, when it
is one. -/
def firstDigitNum : List Char → Option ℕ
  | [] => none
  | c :: _ => if c.isDigit then some (c.toNat - 48) else none

/-- JS `text.match(/^(\d+)/)` followed by `parseInt`: the leading digit
run as a number, when the text starts with a digit. -/
def leadingNumber (s : List Char) : Option ℕ :=
  let ds := s.takeWhile Char.isDigit
  if ds.isEmpty then none else some (digitsToNat ds)

/-- One alternative of `\d{1,2}\/`: one or two digits followed by a
slash.  The two alternatives are mutually exclusive, so no backtracking
across parts is needed. -/
def matchNum12 : List Char → Option (List Char × List Char)
  | a :: '/' :: r => if a.isDigit then some ([a, '/'], r) else none
  | a :: b :: '/' :: r => if a.isDigit && b.isDigit then some ([a, b, '/'], r) else none
  | _ => none

/-- `\d{4}`: exactly four digits. -/
def matchD4 : List Char → Option (List Char × List Char)
  | a :: b :: c :: d :: r =>
    if a.isDigit && b.isDigit && c.isDigit && d.isDigit then some ([a, b, c, d], r) else none
  | _ => none

/-- Try to match `\d{1,2}\/\d{1,2}\/\d{4}` at the start of the string,
returning the matched text and the remainder. -/
def matchDateAt (s : List Char) : Option (List Char × List Char) :=
  match matchNum12 s with
  | none => none
  | some (p1, r1) =>
    match matchNum12 r1 with
    | none => none
    | some (p2, r2) =>
      match matchD4 r2 with
      | none => none
      | some (p3, r3) => some (p1 ++ p2 ++ p3, r3)

/-- Fuelled global scan for date matches; the fuel is the string length,
which bounds the number of scan steps since every step consumes at least
one character. -/
def dateMatchesAux : ℕ → List Char → List (List Char)
  | 0, _ => []
  | _, [] => []
  | fuel + 1, c :: t =>
    match matchDateAt (c :: t) with
    | some (m, r) => m :: dateMatchesAux fuel r
    | none => dateMatchesAux fuel t

/-- JS `text.match(/(\d{1,2}\/\d{1,2}\/\d{4})/g)`: all non-overlapping
date-shaped matches, left to right. -/
def dateMatches (s : List Char) : List (List Char) := dateMatchesAux s.length s

/-! ### Entity resolver (src/unnamed/part_000: calculateSimilarity,
findProductByName, findProductCandidates) -/

/-- A normalized catalog entity as the resolver sees it: primary name,
secondary identifier (SKU), and free-text description. -/
structure CatalogProduct where
  name : List Char
  sku : List Char
  description : List Char
deriving DecidableEq

/-- `calculateSimilarity(str1, str2)` from the source: lower-case both
strings, then run the layered cascade — exact equality 1.0, containment
either direction 0.8, shared-word ratio when at least one word is
common, else positional character-overlap ratio. -/
def calculateSimilarity (str1 str2 : List Char) : ℚ :=
  let s1 := jsToLower str1
  let s2 := jsToLower str2
  if s1 = s2 then 1
  else if jsIncludes s1 s2 || jsIncludes s2 s1 then 4 / 5
  else
    let words1 := splitWs s1
    let words2 := splitWs s2
    let commonWords := words1.filter (fun w => words2.contains w)
    if 0 < commonWords.length then
      (commonWords.length : ℚ) / ((max words1.length words2.length : ℕ) : ℚ)
    else
      let maxLen := max s1.length s2.length
      if maxLen = 0 then 1
      else (((s1.zip s2).countP fun p => p.1 == p.2 : ℕ) : ℚ) / (maxLen : ℚ)

/-- Spec wording, exact-equality layer: 1.0 on case-insensitive equality. -/
def layerExact (s1 s2 : List Char) : ℚ :=
  if jsToLower s1 = jsToLower s2 then 1 else 0

/-- Spec wording, containment layer: 0.8 when either lower-cased string
contains the other. -/
def layerContain (s1 s2 : List Char) : ℚ :=
  if jsIncludes (jsToLower s1) (jsToLower s2) || jsIncludes (jsToLower s2) (jsToLower s1)
  then 4 / 5 else 0

/-- Number of words (case-insensitive) common to both strings, counted
as the source counts them: words of the first string that occur in the
word list of the second. -/
def sharedWordCount (s1 s2 : List Char) : ℕ :=
  ((splitWs (jsToLower s1)).filter fun w => (splitWs (jsToLower s2)).contains w).length

/-- Spec wording, shared-word layer: common-word count divided by the
word count of the longer string. -/
def layerWord (s1 s2 : List Char) : ℚ :=
  if 0 < sharedWordCount s1 s2 then
    (sharedWordCount s1 s2 : ℚ) /
      ((max (splitWs (jsToLower s1)).length (splitWs (jsToLower s2)).length : ℕ) : ℚ)
  else 0

/-- Positional character-overlap ratio: index-by-index matches up to the
shorter length, divided by the longer length. -/
def posRatio (s1 s2 : List Char) : ℚ :=
  let l1 := jsToLower s1
  let l2 := jsToLower s2
  let maxLen := max l1.length l2.length
  if maxLen = 0 then 1
  else (((l1.zip l2).countP fun p => p.1 == p.2 : ℕ) : ℚ) / (maxLen : ℚ)

/-- Spec wording, positional layer, which the spec calls a fallback for
strings sharing no whole words. -/
def layerPos (s1 s2 : List Char) : ℚ :=
  if sharedWordCount s1 s2 = 0 then posRatio s1 s2 else 0

/-- The claim's reading of the spec: the primary-name score is the
maximum over the layered heuristics. -/
def specLayeredMax (s1 s2 : List Char) : ℚ :=
  max (max (layerExact s1 s2) (layerContain s1 s2))
    (max (layerWord s1 s2) (layerPos s1 s2))

/-- First-match reading of the layered cascade, written from the spec's
layer descriptions: the first applicable layer's score wins. -/
def specFirstMatch (s1 s2 : List Char) : ℚ :=
  if jsToLower s1 = jsToLower s2 then 1
  else if jsIncludes (jsToLower s1) (jsToLower s2) || jsIncludes (jsToLower s2) (jsToLower s1)
  then 4 / 5
  else if 0 < sharedWordCount s1 s2 then
    (sharedWordCount s1 s2 : ℚ) /
      ((max (splitWs (jsToLower s1)).length (splitWs (jsToLower s2)).length : ℕ) : ℚ)
  else posRatio s1 s2

/-- A candidate paired with its score, as built inside
`findProductByName` / `findProductCandidates`. -/
structure ScoredProduct where
  product : CatalogProduct
  score : ℚ
deriving DecidableEq

/-- Descending-score ordering used by `scored.sort((a, b) => b.score - a.score)`;
stable insertion sort over this total preorder reproduces the stable JS
sort. -/
def scoreRel (a b : ScoredProduct) : Prop := b.score ≤ a.score

instance : DecidableRel scoreRel := fun a b => Rat.instDecidableLe b.score a.score

instance : IsTotal ScoredProduct scoreRel := ⟨fun a b => le_total b.score a.score⟩

instance : IsTrans ScoredProduct scoreRel := ⟨fun _ _ _ h1 h2 => le_trans h2 h1⟩

/-- The normalized query key: `name.toLowerCase().trim()`. -/
def searchKey (name : List Char) : List Char := trimChars (jsToLower name)

/-- The combined per-product score of `findProductByName`: name
similarity, SKU similarity damped to ×0.7 (0 when the SKU is empty),
and a shared-word bonus of up to 0.2 on top of the maximum of the two. -/
def scoreProduct (searchName : List Char) (p : CatalogProduct) : ℚ :=
  let productName := jsToLower p.name
  let sku := jsToLower p.sku
  let nameScore := calculateSimilarity searchName productName
  let skuScore : ℚ := if sku.isEmpty then 0 else calculateSimilarity searchName sku * (7 / 10)
  let searchWords := splitWs searchName
  let productWords := splitWs productName
  let wordMatchBonus :=
    ((searchWords.filter fun w => productWords.contains w).length : ℚ) /
      (searchWords.length : ℚ) * (1 / 5)
  max nameScore skuScore + wordMatchBonus

/-- The scored pool built inside `findProductByName`. -/
def scoredList (name : List Char) (products : List CatalogProduct) : List ScoredProduct :=
  products.map fun p => ScoredProduct.mk p (scoreProduct (searchKey name) p)

/-- `findProductByName(name)` over an explicit candidate pool: score all
products, sort descending (stably), and return the best product when its
combined score reaches the 0.5 confidence threshold. -/
def findProductByName (name : List Char) (products : List CatalogProduct) :
    Option CatalogProduct :=
  if (searchKey name).isEmpty then none
  else
    match List.insertionSort scoreRel (scoredList name products) with
    | [] => none
    | best :: _ => if (1 : ℚ) / 2 ≤ best.score then some best.product else none

/-- The primary-name-only score used by `findProductCandidates`. -/
def candidateScore (name : List Char) (p : CatalogProduct) : ℚ :=
  calculateSimilarity (searchKey name) (jsToLower p.name)

/-- The scored pool built inside `findProductCandidates`. -/
def candScoredList (name : List Char) (products : List CatalogProduct) :
    List ScoredProduct :=
  products.map fun p => ScoredProduct.mk p (candidateScore name p)

/-- `findProductCandidates(name, limit)`: rank by primary-name
similarity alone, take the first `limit`, and keep those scoring at
least 0.3. -/
def findProductCandidates (name : List Char) (products : List CatalogProduct)
    (limit : ℕ) : List CatalogProduct :=
  let sorted := List.insertionSort scoreRel (candScoredList name products)
  (((sorted.take limit).filter fun s => (3 : ℚ) / 10 ≤ s.score).map fun s => s.product)

/-- The resolver's three-way outcome, per the spec contract
`{match} | {candidates} | {none}`. -/
inductive ResolveResult
  | matched (p : CatalogProduct)
  | candidates (ps : List CatalogProduct)
  | noMatch
deriving DecidableEq

/-- The resolver composition the callers implement: a confident match
from `findProductByName`, otherwise the disambiguation list from
`findProductCandidates`, otherwise nothing. -/
def resolveProduct (name : List Char) (products : List CatalogProduct) : ResolveResult :=
  match findProductByName name products with
  | some p => .matched p
  | none =>
    let cands := findProductCandidates name products 5
    if cands = [] then .noMatch else .candidates cands

/-! ### Confirmation gate and command router
(src/unnamed/part_000: isAdmin, executeCommand, handleIncomingWhatsAppMessage) -/

/-- An entry of the `pendingConfirmations` map: the deferred command and
its arguments (the timestamp plays no role in the gate's logic). -/
structure Pending where
  command : List Char
  params : List (List Char)
deriving DecidableEq

/-- `isAdmin(phoneNumber)`: with an empty configured admin list every
number is an admin. -/
def isAdmin (adminNumbers : List (List Char)) (phoneNumber : List Char) : Bool :=
  adminNumbers.length = 0 || adminNumbers.contains phoneNumber

/-- The admin-gated control commands checked at the top of
`executeCommand`. -/
def controlCommands : List (List Char) :=
  ["/pause".toList, "/resume".toList, "/budget".toList, "/createad".toList]

/-- The commands `executeCommand`'s switch has a case for. -/
def knownCommands : List (List Char) :=
  ["/help".toList, "/stats".toList, "/campaigns".toList, "/best".toList,
   "/pause".toList, "/resume".toList, "/budget".toList, "/ideas".toList,
   "/copy".toList, "/audience".toList, "/createad".toList, "/profile".toList,
   "/report".toList, "/alerts".toList, "/products".toList, "/product".toList,
   "/sync".toList, "/test".toList, "/check".toList, "/angle".toList,
   "/style".toList, "/image".toList, "/images".toList, "/last".toList,
   "/redo".toList]

/-- Observable outcome of `executeCommand`, as far as routing and the
confirmation gate are concerned: denial, a confirmation request, a
dispatched handler, or the unknown-command notice.  The handlers
themselves only talk to external collaborators. -/
inductive CmdOutcome
  | unauthorized
  | confirmRequested
  | handled (cmd : List Char)
  | unknown
deriving DecidableEq

/-- `executeCommand(from, command, params, confirmed)` together with its
effect on the caller's `pendingConfirmations` entry: the admin gate on
control commands first; then `/pause`, `/resume` and `/budget` defer
behind a confirmation request unless already confirmed; `/images` and
`/redo` carry their own admin check; everything else dispatches. -/
def executeCommand (adminNumbers : List (List Char)) (fromNum cmd : List Char)
    (params : List (List Char)) (confirmed : Bool) (pending : Option Pending) :
    CmdOutcome × Option Pending :=
  if controlCommands.contains cmd ∧ ¬ isAdmin adminNumbers fromNum then
    (.unauthorized, pending)
  else if (cmd = "/pause".toList ∨ cmd = "/resume".toList ∨ cmd = "/budget".toList)
      ∧ ¬ confirmed then
    (.confirmRequested, some ⟨cmd, params⟩)
  else if (cmd = "/images".toList ∨ cmd = "/redo".toList)
      ∧ ¬ isAdmin adminNumbers fromNum ∧ adminNumbers ≠ [] then
    (.unauthorized, pending)
  else if knownCommands.contains cmd then (.handled cmd, pending)
  else (.unknown, pending)

/-- How `handleIncomingWhatsAppMessage` disposes of one inbound message:
the non-text notice, a confirmation-gate outcome, a routed slash
command, or fall-through to the ordinary free-text flow. -/
inductive MsgOutcome
  | onlyText
  | confirmExec (command : List Char) (params : List (List Char)) (res : CmdOutcome)
  | confirmCancelled
  | commandRouted (command : List Char) (params : List (List Char)) (res : CmdOutcome)
  | ordinary
deriving DecidableEq

/-- Whether the disposition is the ordinary (non-confirmation) input
processing: slash-command routing or the free-text flow. -/
def MsgOutcome.isOrdinaryProcessing : MsgOutcome → Bool
  | .commandRouted _ _ _ => true
  | .ordinary => true
  | _ => false

/-- Whether the disposition is a confirmation-gate outcome. -/
def MsgOutcome.isConfirmation : MsgOutcome → Bool
  | .confirmExec _ _ _ => true
  | .confirmCancelled => true
  | _ => false

/-- `handleIncomingWhatsAppMessage` for one user: reject non-text
messages; then, when a confirmation is pending, an upper-cased reply
equal to `YES` deletes the entry and executes the deferred command as
confirmed, and any other reply deletes the entry and cancels; with no
pending entry, a leading `/` routes to `executeCommand` and anything
else falls through to the free-text flow.  Returns the disposition and
the user's `pendingConfirmations` entry afterwards. -/
def handleIncomingWhatsAppMessage (adminNumbers : List (List Char)) (fromNum : List Char)
    (pending : Option Pending) (msgType text : List Char) : MsgOutcome × Option Pending :=
  if msgType ≠ "text".toList then (.onlyText, pending)
  else
    match pending with
    | some p =>
      if jsToUpper text = "YES".toList then
        let r := executeCommand adminNumbers fromNum p.command p.params true none
        (.confirmExec p.command p.params r.1, r.2)
      else (.confirmCancelled, none)
    | none =>
      if jsStartsWith text ("/".toList) then
        let parts := splitWs (trimChars text)
        let command := jsToLower (parts.headD [])
        let params := parts.tail
        let r := executeCommand adminNumbers fromNum command params false none
        (.commandRouted command params r.1, r.2)
      else (.ordinary, none)

/-! ### Workflow engine (src/workflows.js) -/

/-- The six workflow kinds of `WORKFLOWS`. -/
inductive WorkflowKind
  | mainMenu
  | createCampaign
  | generateMedia
  | manageCampaigns
  | analyzePerformance
  | manageProducts
deriving DecidableEq

/-- The media record stored into `workflowData` by the media step
(buffer omitted: it is opaque collaborator output). -/
structure MediaRec where
  mimeType : List Char
  mtype : List Char
deriving DecidableEq

/-- Result of a generative-media call, as far as the handler inspects
it. -/
structure GenResult where
  mimeType : List Char
deriving DecidableEq

/-- An audience object as stored in `workflowData`; every field is
optional because the JS value is a plain object that may lack any key. -/
structure AudienceInfo where
  ageMin : Option ℕ
  ageMax : Option ℕ
  genders : Option (List ℕ)
  interests : Option (List (List Char))
deriving DecidableEq

/-- Ad-copy record: the step always materializes all three fields. -/
structure CopyInfo where
  headline : List Char
  text : List Char
  callToAction : List Char
deriving DecidableEq

/-- A parsed ad-copy JSON object, merged over the initial copy record;
any key may be absent. -/
structure CopyPatch where
  headline : Option (List Char)
  text : Option (List Char)
  callToAction : Option (List Char)
deriving DecidableEq

/-- `{ ...copy, ...parsed }`: fields present in the patch win. -/
def applyCopyPatch (c : CopyInfo) (p : CopyPatch) : CopyInfo :=
  ⟨p.headline.getD c.headline, p.text.getD c.text, p.callToAction.getD c.callToAction⟩

/-- Outcome of scanning a model reply for a JSON object: no `{...}`
found, successfully parsed, or `JSON.parse` threw. -/
inductive JsonParse (α : Type)
  | noJson
  | parsed (a : α)
  | parseFailed
deriving DecidableEq

/-- The `workflowData` bag accumulated by the CreateCampaign workflow. -/
structure CampaignData where
  productName : Option (List Char)
  product : Option CatalogProduct
  productList : Option (List CatalogProduct)
  media : Option MediaRec
  objective : Option (List Char)
  objectiveName : Option (List Char)
  budget : Option ℚ
  duration : Option (List Char)
  startTime : Option (List Char)
  endTime : Option (List Char)
  audience : Option AudienceInfo
  copy : Option CopyInfo
deriving DecidableEq

/-- The empty `workflowData` record `{}`. -/
def emptyCampaignData : CampaignData :=
  ⟨none, none, none, none, none, none, none, none, none, none, none, none⟩

/-- One user's workflow session as held in the `userWorkflows` map
(the `timestamp` field plays no role in the logic). -/
structure WSession where
  workflow : WorkflowKind
  step : ℕ
  data : CampaignData
deriving DecidableEq

/-- Messages the workflow engine sends through the transport, reduced
to their identity; failure notices carry the underlying error text. -/
inductive OutMsg
  | goingBack
  | cantGoBack
  | cancelledMsg
  | mainMenuMsg
  | stepPrompt (step : ℕ)
  | productNotFound (name : List Char)
  | listProducts (ps : List CatalogProduct)
  | fetchError (e : List Char)
  | generating
  | mediaGenFailed (e : List Char)
  | mediaPreview (isVideo : Bool)
  | productMissingBack
  | reviewSummary
  | editPrompt
  | campaignCreating
  | campaignCreated
  | campaignCreateFailed (e : List Char)
  | unmodeled
deriving DecidableEq

/-- Results of the external collaborator calls one turn can make,
passed in explicitly: the catalog cache, a direct catalog fetch, the
generative-media backends, the transport upload, the two OpenAI
completions of the budget step, and the ad-platform campaign creation. -/
structure ExtCalls where
  catalog : List CatalogProduct
  fetchProducts : Except (List Char) (List CatalogProduct)
  genImage : Except (List Char) GenResult
  genVideo : Except (List Char) GenResult
  upload : Except (List Char) Unit
  aiAudience : Except (List Char) (JsonParse AudienceInfo)
  aiCopy : Except (List Char) (JsonParse CopyPatch)
  createCampaignResult : Except (List Char) Unit

/-- Session-and-messages result of handling one workflow turn; `none`
means the session was cleared. -/
abbrev WfResult := Option WSession × List OutMsg

/-- The audience default of the inner `catch` (a `JSON.parse` failure). -/
def innerDefaultAudience : AudienceInfo :=
  ⟨some 25, some 45, some [2],
   some ["Hair care".toList, "Beauty".toList, "Skincare".toList]⟩

/-- The audience default of the outer `catch` (the whole AI phase
failed). -/
def outerDefaultAudience : AudienceInfo := ⟨some 25, some 45, some [2], none⟩

/-- The empty object `{}` an audience reply without a JSON match leaves
behind. -/
def emptyAudience : AudienceInfo := ⟨none, none, none, none⟩

/-- The copy default of the outer `catch`:
`{ headline: product?.name || "Campaign", text: "", call_to_action: "Shop Now" }`. -/
def outerDefaultCopy (prod : Option CatalogProduct) : CopyInfo :=
  ⟨(match prod with
    | some p => if p.name = [] then "Campaign".toList else p.name
    | none => "Campaign".toList),
   [], "Shop Now".toList⟩

/-- The copy text substituted when parsing the copy reply throws. -/
def discoverText (p : CatalogProduct) : List Char :=
  "Discover ".toList ++ p.name ++ " - ".toList ++
    (if p.description = [] then "Premium quality product".toList else p.description)

/-- The `mediaType` chosen by the media step from the user's reply. -/
def mediaTypeOf (text : List Char) : List Char :=
  let lower := trimChars (jsToLower text)
  let num := firstDigitNum text
  if num = some 1 || jsIncludes lower ("pack".toList) then "pack".toList
  else if num = some 3 || jsIncludes lower ("video".toList) then "video".toList
  else "single".toList

/-- The AI phase of the budget step: generate audience and copy,
falling back to the documented defaults when the product is missing,
either OpenAI call fails, or parsing throws. -/
def step4AI (ext : ExtCalls) (dat : CampaignData) : CampaignData :=
  match dat.product with
  | none =>
    { dat with audience := some outerDefaultAudience,
               copy := some (outerDefaultCopy dat.product) }
  | some p =>
    match ext.aiAudience with
    | .error _ =>
      { dat with audience := some outerDefaultAudience,
                 copy := some (outerDefaultCopy dat.product) }
    | .ok audParse =>
      let audience :=
        match audParse with
        | .noJson => emptyAudience
        | .parsed a => a
        | .parseFailed => innerDefaultAudience
      match ext.aiCopy with
      | .error _ =>
        { dat with audience := some outerDefaultAudience,
                   copy := some (outerDefaultCopy dat.product) }
      | .ok copyParse =>
        let copy0 : CopyInfo := ⟨p.name, [], "Shop Now".toList⟩
        let copy :=
          match copyParse with
          | .noJson => copy0
          | .parsed patch => applyCopyPatch copy0 patch
          | .parseFailed => { copy0 with text := discoverText p }
        { dat with audience := some audience, copy := some copy }

/-- The fuzzy-name fallthrough of the product-selection step. -/
def campaignNameSearch (ext : ExtCalls) (text : List Char) (w : WSession) : WfResult :=
  match findProductByName text ext.catalog with
  | some product =>
    (some { w with
             data := { w.data with product := some product,
                                   productName := some product.name },
             step := 2 },
     [.stepPrompt 2])
  | none => (some w, [.productNotFound text])

/-- Campaign step 1 (`handleCampaignProductSelection`): list request,
numeric pick from a previously shown list, or fuzzy name lookup. -/
def handleCampaignProductSelection (recur : List Char → WSession → WfResult)
    (ext : ExtCalls) (text : List Char) (w : WSession) : WfResult :=
  let lower := trimChars (jsToLower text)
  if lower = ("list products".toList) ∨ lower = ("list".toList) then
    match ext.fetchProducts with
    | .error e => (some w, [.fetchError e])
    | .ok products =>
      if 0 < products.length then
        (some { w with data := { w.data with productList := some (products.take 10) } },
         [.listProducts (products.take 10)])
      else
        match leadingNumber text, w.data.productList with
        | some n, some plist =>
          if 1 ≤ n ∧ n - 1 < plist.length then
            let product := plist.getD (n - 1) ⟨[], [], []⟩
            recur []
              { w with
                 data := { w.data with product := some product,
                                       productName := some product.name },
                 step := 2 }
          else campaignNameSearch ext text w
        | _, _ => campaignNameSearch ext text w
  else
    match leadingNumber text, w.data.productList with
    | some n, some plist =>
      if 1 ≤ n ∧ n - 1 < plist.length then
        let product := plist.getD (n - 1) ⟨[], [], []⟩
        recur []
          { w with
             data := { w.data with product := some product,
                                   productName := some product.name },
             step := 2 }
      else campaignNameSearch ext text w
    | _, _ => campaignNameSearch ext text w

/-- Campaign step 2 (`handleCampaignMediaSelection`): skip, or generate
the selected media kind, store it, preview it and advance; any failure
in the `try` block is caught and reported without advancing. -/
def handleCampaignMediaSelection (recur : List Char → WSession → WfResult)
    (ext : ExtCalls) (text : List Char) (w : WSession) : WfResult :=
  let lower := trimChars (jsToLower text)
  let num := firstDigitNum text
  if num = some 4 ∨ lower = ("skip".toList) ∨ lower = ("no".toList) then
    recur [] { w with step := 3 }
  else
    match w.data.product with
    | none =>
      let r := recur [] { w with step := 1 }
      (r.1, .productMissingBack :: r.2)
    | some _ =>
      let mediaType := mediaTypeOf text
      let gen := if mediaType = ("video".toList) then ext.genVideo else ext.genImage
      match gen with
      | .error e => (some w, [.generating, .mediaGenFailed e])
      | .ok res =>
        let data' := { w.data with media := some ⟨res.mimeType, mediaType⟩ }
        match ext.upload with
        | .error e => (some { w with data := data' }, [.generating, .mediaGenFailed e])
        | .ok _ =>
          (some { w with data := data', step := 3 },
           [.generating, .mediaPreview (jsIncludes res.mimeType ("video".toList)),
            .stepPrompt 3])

/-- Campaign step 3 (`handleCampaignObjectiveSelection`): map the reply
to an objective (defaulting to Sales/Conversions) and advance. -/
def handleCampaignObjectiveSelection (_recur : List Char → WSession → WfResult)
    (_ext : ExtCalls) (text : List Char) (w : WSession) : WfResult :=
  let lower := trimChars (jsToLower text)
  let num := firstDigitNum text
  let ob :=
    if num = some 2 ∨ jsIncludes lower ("traffic".toList)
        ∨ jsIncludes lower ("website".toList) then
      ("LINK_CLICKS".toList, "Traffic (Website visits)".toList)
    else if num = some 3 ∨ jsIncludes lower ("awareness".toList)
        ∨ jsIncludes lower ("reach".toList) then
      ("REACH".toList, "Awareness (Brand reach)".toList)
    else if num = some 4 ∨ jsIncludes lower ("engagement".toList)
        ∨ jsIncludes lower ("likes".toList)
        ∨ jsIncludes lower ("comments".toList) then
      ("POST_ENGAGEMENT".toList, "Engagement (Likes, comments)".toList)
    else ("CONVERSIONS".toList, "Sales (Conversions)".toList)
  (some { w with
           data := { w.data with objective := some ob.1, objectiveName := some ob.2 },
           step := 4 },
   [.stepPrompt 4])

/-- Campaign step 4 (`handleCampaignBudgetSchedule`): parse a budget
(default 50) and a duration, advance to step 5, run the AI phase, then
fall through into the review step. -/
def handleCampaignBudgetSchedule (recur : List Char → WSession → WfResult)
    (ext : ExtCalls) (text : List Char) (w : WSession) : WfResult :=
  let lower := trimChars (jsToLower text)
  let budget : ℚ := (firstNumber text).getD 50
  let sched : List Char × Option (List Char) × Option (List Char) :=
    if jsIncludes lower ("ongoing".toList) || jsIncludes lower ("default".toList) then
      ("ongoing".toList, none, none)
    else
      match dateMatches text with
      | d1 :: d2 :: _ => (d1 ++ " to ".toList ++ d2, some d1, some d2)
      | _ => ("ongoing".toList, none, none)
  let w1 :=
    { w with
       data := { w.data with budget := some budget, duration := some sched.1,
                             startTime := sched.2.1, endTime := sched.2.2 },
       step := 5 }
  recur [] { w1 with data := step4AI ext w1.data }

/-- Campaign step 5 (`handleCampaignReviewCreate`): always show the
summary, then create (clearing the session on success), offer edits,
cancel, or wait. -/
def handleCampaignReviewCreate (ext : ExtCalls) (text : List Char) (w : WSession) : WfResult :=
  let lower := trimChars (jsToLower text)
  let num := firstDigitNum text
  if num = some 1 ∨ lower = ("yes".toList) ∨ lower = ("create".toList) then
    match ext.createCampaignResult with
    | .ok _ => (none, [.reviewSummary, .campaignCreating, .campaignCreated])
    | .error e => (some w, [.reviewSummary, .campaignCreating, .campaignCreateFailed e])
  else if num = some 2 ∨ lower = ("edit".toList) then
    (some w, [.reviewSummary, .editPrompt])
  else if num = some 3 ∨ lower = ("cancel".toList) then
    (none, [.reviewSummary, .cancelledMsg])
  else (some w, [.reviewSummary])

/-- `handleCampaignWorkflowStep`, fuelled: dispatch on the current step.
The fuel only bounds the step-to-step fallthrough depth, which is at
most the number of steps; every call site supplies ample fuel. -/
def runCampaignStep : ℕ → ExtCalls → List Char → WSession → WfResult
  | 0, _, _, w => (some w, [])
  | fuel + 1, ext, text, w =>
    let recur := runCampaignStep fuel ext
    if w.step = 1 then handleCampaignProductSelection recur ext text w
    else if w.step = 2 then handleCampaignMediaSelection recur ext text w
    else if w.step = 3 then handleCampaignObjectiveSelection recur ext text w
    else if w.step = 4 then handleCampaignBudgetSchedule recur ext text w
    else if w.step = 5 then handleCampaignReviewCreate ext text w
    else (some w, [])

/-- `handleWorkflowStep`: dispatch on the workflow kind.  The claims
under verification only exercise the CreateCampaign workflow; the other
workflows' handlers are outside their scope and are marked as such. -/
def handleWorkflowStep (ext : ExtCalls) (text : List Char) (w : WSession) : WfResult :=
  match w.workflow with
  | .createCampaign => runCampaignStep 6 ext text w
  | _ => (some w, [.unmodeled])

/-- `handleWorkflowNavigation`: `back` decrements the step (with a
floor notice at step ≤ 1) and re-triggers the step handler with empty
input; `cancel` clears the session; `menu` resets to the main menu. -/
def handleWorkflowNavigation (ext : ExtCalls) (s : Option WSession) (text : List Char) :
    WfResult :=
  let lower := trimChars (jsToLower text)
  if lower = ("back".toList) ∨ jsStartsWith lower ("/back".toList) then
    match s with
    | some w =>
      if 1 < w.step then
        let r := handleWorkflowStep ext [] { w with step := w.step - 1 }
        (r.1, .goingBack :: r.2)
      else (s, [.cantGoBack])
    | none => (none, [.cantGoBack])
  else if lower = ("cancel".toList) ∨ jsStartsWith lower ("/cancel".toList) then
    (none, [.cancelledMsg])
  else if lower = ("menu".toList) ∨ jsStartsWith lower ("/menu".toList) then
    (some ⟨.mainMenu, 0, emptyCampaignData⟩, [.mainMenuMsg])
  else (s, [])

/-! ### Sample collaborator results and data used by concrete checks -/

/-- A concrete collaborator environment: empty catalog, failing media
generation and failing AI completions, succeeding transport and
ad-platform calls. -/
def sampleExt : ExtCalls :=
  ⟨[], .ok [], .error ("media backend down".toList), .error ("media backend down".toList),
   .ok (), .error ("ai down".toList), .error ("ai down".toList), .ok ()⟩

/-- A one-product catalog whose single entry is named `shampoo`. -/
def shampooPool : List CatalogProduct := [⟨"shampoo".toList, [], []⟩]

/-- A pool whose single product has an unrelated name but a SKU close
to the query `abc`: the combined score lands in `[0.3, 0.5)` while the
name-only score is 0. -/
def skuPool : List CatalogProduct := [⟨"xyz".toList, "abd".toList, []⟩]

/-! ### Support lemmas -/

attribute [local semireducible] Rat.mul Rat.inv Rat.add Rat.sub

lemma splitWs_aux_ne_nil : ∀ s : List Char,
    (∀ cur, splitWsGo s cur ≠ []) ∧ splitWsSkip s ≠ [] := by
  intro s
  induction s with
  | nil => exact ⟨fun cur => by simp [splitWsGo], by simp [splitWsSkip]⟩
  | cons c t ih =>
    constructor
    · intro cur
      unfold splitWsGo
      by_cases h : isWsChar c <;> simp [h, ih.1]
    · unfold splitWsSkip
      by_cases h : isWsChar c <;> simp [h, ih.1, ih.2]

lemma splitWs_length_pos (s : List Char) : 0 < (splitWs s).length :=
  List.length_pos.mpr ((splitWs_aux_ne_nil s).1 [])

lemma calculateSimilarity_nonneg (s1 s2 : List Char) : 0 ≤ calculateSimilarity s1 s2 := by
  simp only [calculateSimilarity]
  split_ifs with h1 h2 h3 h4
  · norm_num
  · norm_num
  · positivity
  · norm_num
  · positivity

lemma calculateSimilarity_le_one (s1 s2 : List Char) : calculateSimilarity s1 s2 ≤ 1 := by
  simp only [calculateSimilarity]
  split_ifs with h1 h2 h3 h4
  · norm_num
  · norm_num
  · rw [div_le_one (by exact_mod_cast lt_max_of_lt_left (splitWs_length_pos _))]
    exact_mod_cast le_trans (List.length_filter_le _ _) (le_max_left _ _)
  · norm_num
  · rw [div_le_one (by exact_mod_cast Nat.pos_of_ne_zero h4)]
    exact_mod_cast le_trans (List.countP_le_length _)
      (le_trans (by rw [List.length_zip]; exact min_le_left _ _) (le_max_left _ _))

lemma calcSim_self (s t : List Char) (h : jsToLower s = jsToLower t) :
    calculateSimilarity s t = 1 := by
  simp only [calculateSimilarity]
  rw [if_pos h]

lemma scoreProduct_le_sixFifths (searchName : List Char) (q : CatalogProduct) :
    scoreProduct searchName q ≤ 6 / 5 := by
  simp only [scoreProduct]
  have h1 : calculateSimilarity searchName (jsToLower q.name) ≤ 1 :=
    calculateSimilarity_le_one _ _
  have h2 : (if (jsToLower q.sku).isEmpty then (0 : ℚ)
      else calculateSimilarity searchName (jsToLower q.sku) * (7 / 10)) ≤ 1 := by
    split_ifs
    · norm_num
    · nlinarith [calculateSimilarity_le_one searchName (jsToLower q.sku),
        calculateSimilarity_nonneg searchName (jsToLower q.sku)]
  have hp : (0 : ℚ) < ((splitWs searchName).length : ℚ) := by
    exact_mod_cast splitWs_length_pos searchName
  have h3 : ((List.filter (fun w => (splitWs (jsToLower q.name)).contains w)
      (splitWs searchName)).length : ℚ) / ((splitWs searchName).length : ℚ) * (1 / 5)
      ≤ 1 / 5 := by
    have hle : ((List.filter (fun w => (splitWs (jsToLower q.name)).contains w)
        (splitWs searchName)).length : ℚ) / ((splitWs searchName).length : ℚ) ≤ 1 := by
      rw [div_le_one hp]
      exact_mod_cast List.length_filter_le _ _
    have hge : (0 : ℚ) ≤ ((List.filter (fun w => (splitWs (jsToLower q.name)).contains w)
        (splitWs searchName)).length : ℚ) / ((splitWs searchName).length : ℚ) := by
      positivity
    nlinarith
  calc max (calculateSimilarity searchName (jsToLower q.name))
        (if (jsToLower q.sku).isEmpty then (0 : ℚ)
         else calculateSimilarity searchName (jsToLower q.sku) * (7 / 10)) +
        ((List.filter (fun w => (splitWs (jsToLower q.name)).contains w)
          (splitWs searchName)).length : ℚ) / ((splitWs searchName).length : ℚ) * (1 / 5)
      ≤ 1 + 1 / 5 := add_le_add (max_le h1 h2) h3
    _ = 6 / 5 := by norm_num

lemma nameScore_le_scoreProduct (searchName : List Char) (q : CatalogProduct) :
    calculateSimilarity searchName (jsToLower q.name) ≤ scoreProduct searchName q := by
  simp only [scoreProduct]
  have hb : (0 : ℚ) ≤ ((List.filter (fun w => (splitWs (jsToLower q.name)).contains w)
      (splitWs searchName)).length : ℚ) / ((splitWs searchName).length : ℚ) * (1 / 5) := by
    positivity
  calc calculateSimilarity searchName (jsToLower q.name)
      ≤ max (calculateSimilarity searchName (jsToLower q.name))
          (if (jsToLower q.sku).isEmpty then (0 : ℚ)
           else calculateSimilarity searchName (jsToLower q.sku) * (7 / 10)) :=
        le_max_left _ _
    _ ≤ _ := le_add_of_nonneg_right hb

lemma scoreProduct_self (p : CatalogProduct) :
    scoreProduct (jsToLower p.name) p = 6 / 5 := by
  simp only [scoreProduct]
  rw [calcSim_self _ _ rfl]
  have h2 : max (1 : ℚ) (if (jsToLower p.sku).isEmpty then 0
      else calculateSimilarity (jsToLower p.name) (jsToLower p.sku) * (7 / 10)) = 1 := by
    apply max_eq_left
    split_ifs
    · norm_num
    · nlinarith [calculateSimilarity_le_one (jsToLower p.name) (jsToLower p.sku),
        calculateSimilarity_nonneg (jsToLower p.name) (jsToLower p.sku)]
  rw [h2]
  have h3 : List.filter (fun w => (splitWs (jsToLower p.name)).contains w)
      (splitWs (jsToLower p.name)) = splitWs (jsToLower p.name) :=
    List.filter_eq_self.mpr fun w hw => List.elem_iff.mpr hw
  rw [h3]
  have hp : ((splitWs (jsToLower p.name)).length : ℚ) ≠ 0 := by
    have := splitWs_length_pos (jsToLower p.name)
    positivity
  rw [div_self hp]
  norm_num

lemma insertionSort_head_max {l : List ScoredProduct} {b : ScoredProduct}
    {rest : List ScoredProduct} (h : List.insertionSort scoreRel l = b :: rest) :
    b ∈ l ∧ ∀ m ∈ l, m.score ≤ b.score := by
  have hp := List.perm_insertionSort scoreRel l
  rw [h] at hp
  constructor
  · exact hp.subset (List.mem_cons_self b rest)
  · intro m hm
    rcases List.mem_cons.mp (hp.mem_iff.mpr hm) with rfl | hm2
    · exact le_refl _
    · have hs := List.sorted_insertionSort scoreRel l
      rw [h] at hs
      exact List.rel_of_sorted_cons hs m hm2

lemma insertionSort_ne_nil {l : List ScoredProduct} (hl : l ≠ []) :
    List.insertionSort scoreRel l ≠ [] := by
  intro h
  have hp := List.perm_insertionSort scoreRel l
  rw [h] at hp
  exact hl hp.symm.eq_nil

lemma candScoredList_score {name : List Char} {products : List CatalogProduct}
    {s : ScoredProduct} (hs : s ∈ candScoredList name products) :
    s.score = candidateScore name s.product ∧ s.product ∈ products := by
  obtain ⟨q, hq, hqe⟩ := List.mem_map.mp hs
  subst hqe
  exact ⟨rfl, hq⟩

lemma findProductByName_none_of_low (name : List Char) (products : List CatalogProduct)
    (hall : ∀ q ∈ products, scoreProduct (searchKey name) q < 3 / 10) :
    findProductByName name products = none := by
  unfold findProductByName
  split_ifs with h
  · rfl
  · cases hsort : List.insertionSort scoreRel (scoredList name products) with
    | nil => rfl
    | cons b rest =>
      obtain ⟨hb, _⟩ := insertionSort_head_max hsort
      obtain ⟨q, hq, hqe⟩ := List.mem_map.mp hb
      subst hqe
      show (if (1 : ℚ) / 2 ≤ (ScoredProduct.mk q (scoreProduct (searchKey name) q)).score
        then some (ScoredProduct.mk q (scoreProduct (searchKey name) q)).product
        else none) = none
      rw [if_neg (by have := hall q hq; simp only; linarith)]

lemma findProductCandidates_eq_nil (name : List Char) (products : List CatalogProduct)
    (limit : ℕ) (hall : ∀ q ∈ products, candidateScore name q < 3 / 10) :
    findProductCandidates name products limit = [] := by
  unfold findProductCandidates
  rw [List.map_eq_nil_iff, List.filter_eq_nil_iff]
  intro s hs
  have hs2 : s ∈ candScoredList name products :=
    (List.perm_insertionSort scoreRel _).subset ((List.take_sublist _ _).subset hs)
  obtain ⟨he, hmem⟩ := candScoredList_score hs2
  have := hall _ hmem
  rw [← he] at this
  simpa using not_le.mpr this

lemma findProductCandidates_length_le (name : List Char) (products : List CatalogProduct)
    (limit : ℕ) : (findProductCandidates name products limit).length ≤ limit := by
  unfold findProductCandidates
  simp only [List.length_map]
  exact le_trans (List.length_filter_le _ _) (List.length_take_le _ _)

lemma findProductCandidates_sorted (name : List Char) (products : List CatalogProduct)
    (limit : ℕ) :
    List.Pairwise (fun a b => candidateScore name b ≤ candidateScore name a)
      (findProductCandidates name products limit) := by
  unfold findProductCandidates
  rw [List.pairwise_map]
  have hsorted : List.Pairwise scoreRel
      (List.insertionSort scoreRel (candScoredList name products)) :=
    List.sorted_insertionSort scoreRel _
  have hS : List.Pairwise
      (fun a b => candidateScore name b.product ≤ candidateScore name a.product)
      (List.insertionSort scoreRel (candScoredList name products)) := by
    refine hsorted.imp_of_mem ?_
    intro a b ha hb hr
    obtain ⟨hae, _⟩ := candScoredList_score ((List.perm_insertionSort scoreRel _).subset ha)
    obtain ⟨hbe, _⟩ := candScoredList_score ((List.perm_insertionSort scoreRel _).subset hb)
    rw [← hae, ← hbe]
    exact hr
  exact List.Pairwise.sublist ((List.filter_sublist _).trans (List.take_sublist _ _)) hS

lemma findProductCandidates_threshold (name : List Char) (products : List CatalogProduct)
    (limit : ℕ) :
    ∀ q ∈ findProductCandidates name products limit, 3 / 10 ≤ candidateScore name q := by
  intro q hq
  unfold findProductCandidates at hq
  obtain ⟨s, hs, rfl⟩ := List.mem_map.mp hq
  have hmem : s ∈ candScoredList name products :=
    (List.perm_insertionSort scoreRel _).subset
      ((List.take_sublist _ _).subset (List.mem_of_mem_filter hs))
  obtain ⟨he, _⟩ := candScoredList_score hmem
  have hpred := List.of_mem_filter hs
  rw [← he]
  exact of_decide_eq_true hpred

lemma findProductByName_some_max {name : List Char} {products : List CatalogProduct}
    {p : CatalogProduct} (h : findProductByName name products = some p) :
    1 / 2 ≤ scoreProduct (searchKey name) p ∧
      ∀ q ∈ products, scoreProduct (searchKey name) q ≤ scoreProduct (searchKey name) p := by
  unfold findProductByName at h
  split_ifs at h with hemp
  cases hsort : List.insertionSort scoreRel (scoredList name products) with
  | nil => rw [hsort] at h; simp at h
  | cons b rest =>
    rw [hsort] at h
    dsimp only at h
    obtain ⟨hb, hmax⟩ := insertionSort_head_max hsort
    by_cases hbs : (1 : ℚ) / 2 ≤ b.score
    · rw [if_pos hbs] at h
      obtain ⟨q, hq, hqe⟩ := List.mem_map.mp hb
      subst hqe
      obtain rfl : q = p := by simpa using h
      refine ⟨hbs, ?_⟩
      intro q' hq'
      exact hmax _ (List.mem_map_of_mem _ hq')
    · rw [if_neg hbs] at h
      simp at h

lemma findProductByName_isSome_of_high (name : List Char) (products : List CatalogProduct)
    (hne : searchKey name ≠ [])
    (hex : ∃ q ∈ products, 1 / 2 ≤ scoreProduct (searchKey name) q) :
    ∃ b, findProductByName name products = some b := by
  obtain ⟨q, hq, hscore⟩ := hex
  unfold findProductByName
  rw [if_neg (by simpa using hne)]
  have hsl : (⟨q, scoreProduct (searchKey name) q⟩ : ScoredProduct) ∈ scoredList name products :=
    List.mem_map_of_mem _ hq
  have hnil : scoredList name products ≠ [] := by
    intro h; rw [h] at hsl; simp at hsl
  cases hsort : List.insertionSort scoreRel (scoredList name products) with
  | nil => exact absurd hsort (insertionSort_ne_nil hnil)
  | cons b rest =>
    obtain ⟨hb, hmax⟩ := insertionSort_head_max hsort
    have hbs : (1 : ℚ) / 2 ≤ b.score := le_trans hscore (hmax _ hsl)
    refine ⟨b.product, ?_⟩
    show (if (1 : ℚ) / 2 ≤ b.score then some b.product else none) = some b.product
    rw [if_pos hbs]

lemma step4AI_budget (ext : ExtCalls) (dat : CampaignData) :
    (step4AI ext dat).budget = dat.budget := by
  unfold step4AI
  rcases dat.product with _ | p
  · rfl
  · rcases ext.aiAudience with e | a
    · rfl
    · rcases ext.aiCopy with e | c
      · rfl
      · rfl

lemma step4AI_fail_defaults (ext : ExtCalls) (dat : CampaignData) (e : List Char)
    (hfail : ext.aiAudience = .error e ∨ ext.aiCopy = .error e) :
    (step4AI ext dat).audience = some outerDefaultAudience ∧
      (step4AI ext dat).copy = some (outerDefaultCopy dat.product) := by
  unfold step4AI
  rcases dat.product with _ | p
  · exact ⟨rfl, rfl⟩
  · rcases hfail with ha | hc
    · rw [ha]
      exact ⟨rfl, rfl⟩
    · cases haud : ext.aiAudience with
      | error e2 => exact ⟨rfl, rfl⟩
      | ok aud =>
        dsimp only
        rw [hc]
        exact ⟨rfl, rfl⟩

lemma executeCommand_confirmed_snd (admin : List (List Char)) (f c : List Char)
    (ps : List (List Char)) (pend : Option Pending) :
    (executeCommand admin f c ps true pend).2 = pend := by
  unfold executeCommand
  split_ifs with h1 h2 h3 h4 <;> first | rfl | exact absurd rfl h2.2

lemma executeCommand_nil_admin (f c : List Char) (ps : List (List Char))
    (conf : Bool) (pend : Option Pending) :
    (executeCommand [] f c ps conf pend).1 ≠ .unauthorized := by
  unfold executeCommand
  split_ifs with h1 h2 h3 h4
  · exact absurd rfl h1.2
  · simp
  · exact absurd rfl h3.2.2
  · simp
  · simp

lemma specFirstMatch_le_layeredMax (s1 s2 : List Char) :
    specFirstMatch s1 s2 ≤ specLayeredMax s1 s2 := by
  unfold specFirstMatch specLayeredMax layerExact layerContain layerWord layerPos
  by_cases h1 : jsToLower s1 = jsToLower s2
  · simp only [if_pos h1]
    exact le_trans (le_max_left _ _) (le_max_left _ _)
  · simp only [if_neg h1]
    by_cases h2 : (jsIncludes (jsToLower s1) (jsToLower s2)
        || jsIncludes (jsToLower s2) (jsToLower s1)) = true
    · simp only [if_pos h2]
      exact le_trans (le_max_right _ _) (le_max_left _ _)
    · simp only [if_neg h2]
      by_cases h3 : 0 < sharedWordCount s1 s2
      · simp only [if_pos h3]
        exact le_trans (le_max_left _ _) (le_max_right _ _)
      · simp only [if_neg h3, if_pos (Nat.eq_zero_of_not_pos h3)]
        exact le_trans (le_max_right _ _) (le_max_right _ _)

/-! ### Claim theorems -/

/-- C1 (counterexample): on `"a b c d e"` vs `"a b c d e x"` the source
scorer answers 0.8 (the containment layer fires first), while the
maximum over the layered heuristics is the shared-word ratio 5/6, so the
primary-name score does not equal the layered maximum. -/
theorem C1_counterexample :
    calculateSimilarity ("a b c d e".toList) ("a b c d e x".toList) = 4 / 5 ∧
    specLayeredMax ("a b c d e".toList) ("a b c d e x".toList) = 5 / 6 ∧
    calculateSimilarity ("a b c d e".toList) ("a b c d e x".toList) ≠
      specLayeredMax ("a b c d e".toList) ("a b c d e x".toList) :=
  ⟨by decide, by decide, by decide⟩

/-- C1 (amended): for every pair of input strings the primary-name
similarity score equals the score of the FIRST matching layer in
precedence order (exact equality 1.0, else containment 0.8, else
shared-word ratio when at least one word is shared, else the positional
character-overlap ratio); that first-match score is bounded above by —
but not in general equal to — the maximum over the layers. -/
theorem C1_amended_first_layer_wins :
    (∀ s1 s2 : List Char, calculateSimilarity s1 s2 = specFirstMatch s1 s2) ∧
    ∀ s1 s2 : List Char, calculateSimilarity s1 s2 ≤ specLayeredMax s1 s2 :=
  ⟨fun _ _ => rfl, fun s1 s2 => specFirstMatch_le_layeredMax s1 s2⟩

/-- C2 (counterexample): for the exact-name query `shampoo` against a
pool holding exactly the product `shampoo`, the resolver does return
that entity as a confident match, but its combined score is 1.2 (name
similarity 1.0 plus the 0.2 whole-word bonus), not 1.0 as the claim
states. -/
theorem C2_counterexample :
    findProductByName ("shampoo".toList) shampooPool = some ⟨"shampoo".toList, [], []⟩ ∧
    scoreProduct (searchKey ("shampoo".toList)) ⟨"shampoo".toList, [], []⟩ = 6 / 5 ∧
    scoreProduct (searchKey ("shampoo".toList)) ⟨"shampoo".toList, [], []⟩ ≠ 1 :=
  ⟨by decide, by decide, by decide⟩

/-- C2 (amended): whenever the normalized query equals some candidate's
lower-cased primary name (and that name is non-empty), that candidate's
combined score is exactly 1.2 — the maximum attainable, as every
candidate scores at most 1.2 — and the resolver returns a confident
match (it clears the 0.5 threshold; with duplicate top scores the first
tied candidate wins). -/
theorem C2_amended_exact_match (name : List Char) (products : List CatalogProduct)
    (p : CatalogProduct) (hmem : p ∈ products)
    (hname : searchKey name = jsToLower p.name) (hne : jsToLower p.name ≠ []) :
    scoreProduct (searchKey name) p = 6 / 5 ∧
    (∀ q ∈ products, scoreProduct (searchKey name) q ≤ 6 / 5) ∧
    (findProductByName name products).isSome := by
  have hscore : scoreProduct (searchKey name) p = 6 / 5 := by
    rw [hname]; exact scoreProduct_self p
  refine ⟨hscore, fun q _ => scoreProduct_le_sixFifths _ q, ?_⟩
  unfold findProductByName
  rw [if_neg (by rw [hname]; simpa using hne)]
  have hsl : (⟨p, scoreProduct (searchKey name) p⟩ : ScoredProduct) ∈ scoredList name products :=
    List.mem_map_of_mem _ hmem
  have hnil : scoredList name products ≠ [] := by
    intro h; rw [h] at hsl; simp at hsl
  cases hsort : List.insertionSort scoreRel (scoredList name products) with
  | nil => exact absurd hsort (insertionSort_ne_nil hnil)
  | cons b rest =>
    obtain ⟨hb, hmax⟩ := insertionSort_head_max hsort
    have hbs : (1 : ℚ) / 2 ≤ b.score := by
      have h6 : scoreProduct (searchKey name) p ≤ b.score := hmax _ hsl
      rw [hscore] at h6
      linarith
    show (if (1 : ℚ) / 2 ≤ b.score then some b.product else none).isSome
    rw [if_pos hbs]
    rfl

/-- C2 (witness): the amended claim instantiated on the exact-name query
`shampoo` over the one-product pool. -/
theorem C2_amended_exact_match_witness :
    scoreProduct (searchKey ("shampoo".toList)) ⟨"shampoo".toList, [], []⟩ = 6 / 5 ∧
    (∀ q ∈ shampooPool, scoreProduct (searchKey ("shampoo".toList)) q ≤ 6 / 5) ∧
    (findProductByName ("shampoo".toList) shampooPool).isSome :=
  C2_amended_exact_match ("shampoo".toList) shampooPool ⟨"shampoo".toList, [], []⟩
    (by decide) (by decide) (by decide)

/-- C3 (counterexample): for the query `abc` against a pool whose only
product is named `xyz` with SKU `abd`, the best combined score is 7/15,
inside `[0.3, 0.5)` — yet the resolver returns `none` rather than a
non-empty candidate list, because the candidates path ranks by
primary-name similarity alone (here 0). -/
theorem C3_counterexample :
    scoreProduct (searchKey ("abc".toList)) ⟨"xyz".toList, "abd".toList, []⟩ = 7 / 15 ∧
    ((3 : ℚ) / 10 ≤ 7 / 15 ∧ (7 : ℚ) / 15 < 1 / 2) ∧
    candidateScore ("abc".toList) ⟨"xyz".toList, "abd".toList, []⟩ = 0 ∧
    resolveProduct ("abc".toList) skuPool = .noMatch :=
  ⟨by decide, ⟨by decide, by decide⟩, by decide, by decide⟩

/-- C3 (amended): provided the normalized query is non-empty (a
whitespace-only query is special-cased away from the match path by the
empty-searchName guard even though containment gives every non-empty
name 0.8), a combined score reaching 0.5 anywhere in the pool makes the
resolver return a confident match; any returned match has a maximal
combined score that is at least 0.5; the resolver returns `none` when
every combined score is below 0.3; and the candidates path ranks by
primary-name similarity alone, yielding at most 5 products sorted
descending by that score, each scoring at least 0.3 — but this list can
be empty even when the best combined score lies in `[0.3, 0.5)` (when
it is driven by the SKU term). -/
theorem C3_amended_decision_rule (name : List Char) (products : List CatalogProduct)
    (p : CatalogProduct) :
    (searchKey name ≠ [] → (∃ q ∈ products, 1 / 2 ≤ scoreProduct (searchKey name) q) →
       ∃ b, resolveProduct name products = .matched b) ∧
    ((∀ q ∈ products, scoreProduct (searchKey name) q < 3 / 10) →
       resolveProduct name products = .noMatch) ∧
    ((findProductCandidates name products 5).length ≤ 5 ∧
     List.Pairwise (fun a b => candidateScore name b ≤ candidateScore name a)
       (findProductCandidates name products 5) ∧
     ∀ q ∈ findProductCandidates name products 5, 3 / 10 ≤ candidateScore name q) ∧
    (resolveProduct name products = .matched p →
       1 / 2 ≤ scoreProduct (searchKey name) p ∧
       ∀ q ∈ products, scoreProduct (searchKey name) q ≤ scoreProduct (searchKey name) p) := by
  refine ⟨?_, ?_, ⟨findProductCandidates_length_le name products 5,
    findProductCandidates_sorted name products 5,
    findProductCandidates_threshold name products 5⟩, ?_⟩
  · intro hne hex
    obtain ⟨b, hb⟩ := findProductByName_isSome_of_high name products hne hex
    refine ⟨b, ?_⟩
    unfold resolveProduct
    rw [hb]
  · intro hall
    unfold resolveProduct
    rw [findProductByName_none_of_low name products hall]
    dsimp only
    rw [findProductCandidates_eq_nil name products 5
      (fun q hq => lt_of_le_of_lt (nameScore_le_scoreProduct _ q) (hall q hq))]
    rfl
  · intro hm
    unfold resolveProduct at hm
    cases hf : findProductByName name products with
    | some pp =>
      rw [hf] at hm
      dsimp only at hm
      obtain rfl : pp = p := by
        cases hm
        rfl
      exact findProductByName_some_max hf
    | none =>
      rw [hf] at hm
      dsimp only at hm
      split_ifs at hm

/-- C3 (witness): the amended decision rule instantiated on the
`shampoo` pool, where the match branch applies: the non-empty query
scoring 6/5 ≥ 1/2 forces a confident match, and any returned match is
maximal with score at least 1/2. -/
theorem C3_amended_decision_rule_witness :
    (∃ b, resolveProduct ("shampoo".toList) shampooPool = .matched b) ∧
    (resolveProduct ("shampoo".toList) shampooPool = .matched ⟨"shampoo".toList, [], []⟩ →
       1 / 2 ≤ scoreProduct (searchKey ("shampoo".toList)) ⟨"shampoo".toList, [], []⟩ ∧
       ∀ q ∈ shampooPool, scoreProduct (searchKey ("shampoo".toList)) q ≤
         scoreProduct (searchKey ("shampoo".toList)) ⟨"shampoo".toList, [], []⟩) ∧
    (1 / 2 ≤ scoreProduct (searchKey ("shampoo".toList)) ⟨"shampoo".toList, [], []⟩) :=
  ⟨(C3_amended_decision_rule ("shampoo".toList) shampooPool ⟨"shampoo".toList, [], []⟩).1
     (by decide) ⟨⟨"shampoo".toList, [], []⟩, by decide, by decide⟩,
   (C3_amended_decision_rule ("shampoo".toList) shampooPool ⟨"shampoo".toList, [], []⟩).2.2.2,
   ((C3_amended_decision_rule ("shampoo".toList) shampooPool
      ⟨"shampoo".toList, [], []⟩).2.2.2 (by decide)).1⟩

/-- C4: with a confirmation pending, a text reply whose upper-casing is
`YES` (i.e. equal to the accept token ignoring case) resolves to
confirmed and dispatches the deferred command as confirmed; any other
text reply resolves to cancelled; and a text reply with no pending
confirmation is not an error — it is processed as ordinary input
(slash-command routing or the free-text flow). -/
theorem C4_confirmation_gate (admin : List (List Char)) (fromNum : List Char)
    (pending : Option Pending) (p : Pending) (text : List Char) :
    (pending = some p → jsToUpper text = "YES".toList →
      (handleIncomingWhatsAppMessage admin fromNum pending ("text".toList) text).1
        = .confirmExec p.command p.params
            (executeCommand admin fromNum p.command p.params true none).1) ∧
    (pending = some p → jsToUpper text ≠ "YES".toList →
      (handleIncomingWhatsAppMessage admin fromNum pending ("text".toList) text).1
        = .confirmCancelled) ∧
    (pending = none →
      (handleIncomingWhatsAppMessage admin fromNum pending
        ("text".toList) text).1.isOrdinaryProcessing = true) := by
  refine ⟨?_, ?_, ?_⟩
  · rintro rfl hyes
    unfold handleIncomingWhatsAppMessage
    rw [if_neg (by simp)]
    dsimp only
    rw [if_pos hyes]
  · rintro rfl hyes
    unfold handleIncomingWhatsAppMessage
    rw [if_neg (by simp)]
    dsimp only
    rw [if_neg hyes]
  · rintro rfl
    unfold handleIncomingWhatsAppMessage
    rw [if_neg (by simp)]
    dsimp only
    by_cases hs : jsStartsWith text ("/".toList)
    · rw [if_pos hs]; rfl
    · rw [if_neg hs]; rfl

/-- C4 (witness): the gate instantiated on a pending `/pause`: the
mixed-case reply `Yes` confirms and dispatches, `no` cancels, and with
nothing pending a greeting falls through to ordinary processing. -/
theorem C4_confirmation_gate_witness :
    (handleIncomingWhatsAppMessage [] ("111".toList)
        (some ⟨"/pause".toList, ["camp".toList]⟩) ("text".toList) ("Yes".toList)).1
      = .confirmExec ("/pause".toList) ["camp".toList] (.handled ("/pause".toList)) ∧
    (handleIncomingWhatsAppMessage [] ("111".toList)
        (some ⟨"/pause".toList, ["camp".toList]⟩) ("text".toList) ("no".toList)).1
      = .confirmCancelled ∧
    (handleIncomingWhatsAppMessage [] ("111".toList) none
        ("text".toList) ("hello".toList)).1.isOrdinaryProcessing = true := by
  refine ⟨?_, ?_, ?_⟩
  · exact ((C4_confirmation_gate [] ("111".toList)
      (some ⟨"/pause".toList, ["camp".toList]⟩) ⟨"/pause".toList, ["camp".toList]⟩
      ("Yes".toList)).1 rfl (by decide)).trans (by decide)
  · exact (C4_confirmation_gate [] ("111".toList)
      (some ⟨"/pause".toList, ["camp".toList]⟩) ⟨"/pause".toList, ["camp".toList]⟩
      ("no".toList)).2.1 rfl (by decide)
  · exact (C4_confirmation_gate [] ("111".toList) none ⟨[], []⟩
      ("hello".toList)).2.2 rfl

/-- C5 (counterexample): a non-text message (type `image`) arriving
while a confirmation is pending is answered with the text-only notice
and is NOT interpreted as a confirmation response — and the
PendingConfirmation survives it, contradicting the claim that the next
incoming message always resolves the pending entry. -/
theorem C5_counterexample :
    (handleIncomingWhatsAppMessage [] ("1".toList) (some ⟨"/pause".toList, []⟩)
        ("image".toList) ("YES".toList)).1 = .onlyText ∧
    (handleIncomingWhatsAppMessage [] ("1".toList) (some ⟨"/pause".toList, []⟩)
        ("image".toList) ("YES".toList)).1.isConfirmation = false ∧
    (handleIncomingWhatsAppMessage [] ("1".toList) (some ⟨"/pause".toList, []⟩)
        ("image".toList) ("YES".toList)).2 = some ⟨"/pause".toList, []⟩ :=
  ⟨by decide, by decide, by decide⟩

/-- C5 (amended): whenever a PendingConfirmation exists, the next
incoming TEXT message is interpreted exclusively as a confirmation
response (never as command, navigation, workflow or freeform input),
and afterwards no PendingConfirmation remains for the user — the
confirmed branch re-dispatches the stored command with the confirmed
flag set, which never re-requests confirmation. -/
theorem C5_amended_text_exclusive (admin : List (List Char)) (fromNum : List Char)
    (pending : Option Pending) (p : Pending) (text : List Char) (hp : pending = some p) :
    ((∃ res, (handleIncomingWhatsAppMessage admin fromNum pending ("text".toList) text).1
        = .confirmExec p.command p.params res) ∨
      (handleIncomingWhatsAppMessage admin fromNum pending ("text".toList) text).1
        = .confirmCancelled) ∧
    (handleIncomingWhatsAppMessage admin fromNum pending
      ("text".toList) text).1.isConfirmation = true ∧
    (handleIncomingWhatsAppMessage admin fromNum pending ("text".toList) text).2 = none := by
  subst hp
  unfold handleIncomingWhatsAppMessage
  rw [if_neg (by simp)]
  dsimp only
  by_cases hyes : jsToUpper text = "YES".toList
  · rw [if_pos hyes]
    exact ⟨Or.inl ⟨_, rfl⟩, rfl,
      executeCommand_confirmed_snd admin fromNum p.command p.params none⟩
  · rw [if_neg hyes]
    exact ⟨Or.inr rfl, rfl, rfl⟩

/-- C5 (witness): the amended claim instantiated on an arbitrary text
reply to a pending `/pause`. -/
theorem C5_amended_text_exclusive_witness :
    ((∃ res, (handleIncomingWhatsAppMessage [] ("1".toList) (some ⟨"/pause".toList, []⟩)
        ("text".toList) ("maybe".toList)).1
        = .confirmExec ("/pause".toList) [] res) ∨
      (handleIncomingWhatsAppMessage [] ("1".toList) (some ⟨"/pause".toList, []⟩)
        ("text".toList) ("maybe".toList)).1 = .confirmCancelled) ∧
    (handleIncomingWhatsAppMessage [] ("1".toList) (some ⟨"/pause".toList, []⟩)
      ("text".toList) ("maybe".toList)).1.isConfirmation = true ∧
    (handleIncomingWhatsAppMessage [] ("1".toList) (some ⟨"/pause".toList, []⟩)
      ("text".toList) ("maybe".toList)).2 = none :=
  C5_amended_text_exclusive [] ("1".toList) (some ⟨"/pause".toList, []⟩)
    ⟨"/pause".toList, []⟩ ("maybe".toList) rfl

/-- C6: at step 2 of CreateCampaign, when the reply is not a skip and a
product is stored, a failure of the selected generative-media call is
caught and reported to the user with the underlying error message, and
the session is returned unchanged — the step stays 2 and the
accumulated workflowData is untouched. -/
theorem C6_media_failure_preserves_state (ext : ExtCalls) (text : List Char)
    (w : WSession) (e : List Char)
    (hw : w.workflow = .createCampaign) (hs : w.step = 2)
    (hskip : ¬ (firstDigitNum text = some 4 ∨ trimChars (jsToLower text) = "skip".toList
      ∨ trimChars (jsToLower text) = "no".toList))
    (hp : w.data.product.isSome)
    (hgen : (if mediaTypeOf text = ("video".toList) then ext.genVideo else ext.genImage)
      = .error e) :
    handleWorkflowStep ext text w = (some w, [.generating, .mediaGenFailed e]) := by
  obtain ⟨wk, st, dat⟩ := w
  simp only at hw hs hp ⊢
  subst hw hs
  obtain ⟨p, hp2⟩ := Option.isSome_iff_exists.mp hp
  have hdisp : handleWorkflowStep ext text ⟨.createCampaign, 2, dat⟩
      = handleCampaignMediaSelection (runCampaignStep 5 ext) ext text
          ⟨.createCampaign, 2, dat⟩ := rfl
  rw [hdisp]
  unfold handleCampaignMediaSelection
  simp only [if_neg hskip]
  rw [hp2]
  simp only []
  rw [hgen]

/-- C6 (witness): the reply `1` (image pack) at step 2 with a failing
image backend: the session comes back unchanged and the failure notice
carries the backend's message. -/
theorem C6_media_failure_preserves_state_witness :
    handleWorkflowStep sampleExt ("1".toList)
        ⟨.createCampaign, 2,
          { emptyCampaignData with product := some ⟨"shampoo".toList, [], []⟩ }⟩
      = (some ⟨.createCampaign, 2,
          { emptyCampaignData with product := some ⟨"shampoo".toList, [], []⟩ }⟩,
         [.generating, .mediaGenFailed ("media backend down".toList)]) :=
  C6_media_failure_preserves_state sampleExt ("1".toList)
    ⟨.createCampaign, 2, { emptyCampaignData with product := some ⟨"shampoo".toList, [], []⟩ }⟩
    ("media backend down".toList) rfl rfl (by decide) (by decide) rfl

/-- C7: at step 4 of CreateCampaign a message with no parseable currency
amount yields the default daily budget 50 rather than an error, the
workflow always advances to step 5 (falling through into the review
prompt), and whenever the asynchronous generation fails — the audience
call OR the ad-copy call erroring out — the documented default audience
and copy are substituted. -/
theorem C7_budget_defaults (ext : ExtCalls) (text : List Char) (w : WSession)
    (hw : w.workflow = .createCampaign) (hs : w.step = 4)
    (hnum : firstNumber text = none) :
    ∃ d' : CampaignData,
      handleWorkflowStep ext text w = (some ⟨.createCampaign, 5, d'⟩, [.reviewSummary]) ∧
      d'.budget = some 50 ∧
      (∀ e, ext.aiAudience = .error e ∨ ext.aiCopy = .error e →
        d'.audience = some outerDefaultAudience ∧
        d'.copy = some (outerDefaultCopy w.data.product)) := by
  obtain ⟨wk, st, dat⟩ := w
  simp only at hw hs ⊢
  subst hw hs
  refine ⟨_, rfl, ?_, ?_⟩
  · rw [step4AI_budget]
    simp [hnum]
  · intro e hfail
    exact step4AI_fail_defaults ext _ e hfail

/-- C7 (witness): the reply `use defaults` at step 4 with the failing
OpenAI collaborator: budget 50, step 5, default audience and copy. -/
theorem C7_budget_defaults_witness :
    ∃ d' : CampaignData,
      handleWorkflowStep sampleExt ("use defaults".toList)
          ⟨.createCampaign, 4,
            { emptyCampaignData with product := some ⟨"shampoo".toList, [], []⟩ }⟩
        = (some ⟨.createCampaign, 5, d'⟩, [.reviewSummary]) ∧
      d'.budget = some 50 ∧
      (∀ e, sampleExt.aiAudience = .error e ∨ sampleExt.aiCopy = .error e →
        d'.audience = some outerDefaultAudience ∧
        d'.copy = some (outerDefaultCopy (some ⟨"shampoo".toList, [], []⟩))) :=
  C7_budget_defaults sampleExt ("use defaults".toList)
    ⟨.createCampaign, 4, { emptyCampaignData with product := some ⟨"shampoo".toList, [], []⟩ }⟩
    rfl rfl (by decide)

/-- C9: for a user whose active workflow sits at step ≤ 1, issuing
`back` (or `/back…`) is a no-op on the session — the same session comes
back untouched, step and workflowData included — and the only effect is
the can't-go-back notice. -/
theorem C9_back_floor_noop (ext : ExtCalls) (w : WSession) (text : List Char)
    (htext : trimChars (jsToLower text) = "back".toList ∨
      jsStartsWith (trimChars (jsToLower text)) ("/back".toList))
    (hstep : w.step ≤ 1) :
    handleWorkflowNavigation ext (some w) text = (some w, [.cantGoBack]) := by
  unfold handleWorkflowNavigation
  rw [if_pos htext]
  simp [Nat.not_lt.mpr hstep]

/-- C9 (witness): `back` at step 1 of CreateCampaign. -/
theorem C9_back_floor_noop_witness :
    handleWorkflowNavigation sampleExt (some ⟨.createCampaign, 1, emptyCampaignData⟩)
        ("back".toList)
      = (some ⟨.createCampaign, 1, emptyCampaignData⟩, [.cantGoBack]) :=
  C9_back_floor_noop sampleExt ⟨.createCampaign, 1, emptyCampaignData⟩ ("back".toList)
    (by left; decide) (by decide)

/-- C10: with an empty configured admin-number list, `isAdmin` accepts
every phone number and `executeCommand` can never answer the
Unauthorized denial — so the admin-gated commands are available to
everyone, and the denial branch is reachable only when at least one
admin number is configured. -/
theorem C10_admin_gate (admin : List (List Char)) (fromNum cmd : List Char)
    (params : List (List Char)) (confirmed : Bool) (pending : Option Pending) :
    (admin = [] → isAdmin admin fromNum = true ∧
      (executeCommand admin fromNum cmd params confirmed pending).1 ≠ .unauthorized) ∧
    ((executeCommand admin fromNum cmd params confirmed pending).1 = .unauthorized →
      admin ≠ []) := by
  constructor
  · rintro rfl
    exact ⟨rfl, executeCommand_nil_admin fromNum cmd params confirmed pending⟩
  · intro h heq
    subst heq
    exact executeCommand_nil_admin fromNum cmd params confirmed pending h

/-- C10 (witness): with no admins configured, an arbitrary number may
run `/pause`; and a configured single-admin list is non-empty, as
forced by the Unauthorized outcome it produces for a stranger. -/
theorem C10_admin_gate_witness :
    (isAdmin [] ("555".toList) = true ∧
      (executeCommand [] ("555".toList) ("/pause".toList) [] false none).1
        ≠ .unauthorized) ∧
    (["111".toList] : List (List Char)) ≠ [] :=
  ⟨(C10_admin_gate [] ("555".toList) ("/pause".toList) [] false none).1 rfl,
   (C10_admin_gate ["111".toList] ("222".toList) ("/pause".toList) [] false none).2
     (by decide)⟩
